import Mathlib

/-!
Shallow embedding of the CKEditor 4 Angular integration component
(`src/unnamed/part_000`, class `CKEditorComponent`) and proofs about its
data-binding, read-only buffering, creation handshake, change propagation
and lifecycle behaviour.

Modelling conventions:
* The editor instance (an external CKEDITOR object) is modelled by the
  `Editor` structure: its stored value, read-only flag, the presence of an
  undo manager, its lock state, and a finite content-normalization table
  (`acf`) standing in for the editor's Advanced Content Filter, which may
  replace pushed data (`// Data may be changed by ACF.`).
* Nullable JS values become `Option`: `_data : Option String`,
  `_readOnly : Option Bool`, `inst : Option Editor` (the field `instance`
  of the source; `instance` is a Lean keyword).
* Observable effects (EventEmitter emissions, callback invocations,
  `editor.fire` calls, undo lock/unlock, `console.error`) are collected in
  an ordered list of `Ev` values returned alongside the new state.
* The asynchronous lifecycle (script resolution promise, the native
  `instanceReady` event, destruction, user actions) is modelled as a step
  machine over actions `Act`, with guard `enabled` expressing when the
  environment can deliver an action (a promise settles once, the native
  `instanceReady` fires only after `createEditor` ran, and only once).
  Instrumentation fields (`resolved`, `creatorRun`, `handshakeDone`,
  `lateReady`, `subs`) record history; the source's own fields keep their
  names.
-/

namespace CkAngular

/-- Editor data values: `null` or a string. -/
abbrev Data := Option String

/-- Finite table modelling the editor's content normalization (ACF):
inputs not listed are kept unchanged. -/
abbrev NormTbl := List (Data × Data)

/-- Apply the normalization table; unlisted data is returned as-is. -/
def lookupNorm (t : NormTbl) (d : Data) : Data :=
  match t.find? (fun p => p.1 == d) with
  | some p => p.2
  | none => d

/-- Model of a live CKEDITOR editor instance (external collaborator). -/
structure Editor where
  value : Data
  readOnly : Bool
  hasUndo : Bool
  undoLocked : Bool
  acf : NormTbl
  deriving DecidableEq, Repr

/-- Method `editor.setData(d)`: the stored value becomes the normalized input. -/
def Editor.setData (e : Editor) (d : Data) : Editor :=
  { e with value := lookupNorm e.acf d }

/-- Method `editor.getData()`. -/
def Editor.getData (e : Editor) : Data :=
  e.value

/-- Method `editor.setReadOnly(b)`. -/
def Editor.setReadOnly (e : Editor) (b : Bool) : Editor :=
  { e with readOnly := b }

/-- Native editor event names the shared `propagateChange` handler can be
bound to (`change`, `dataReady`, `selectionCheck`). -/
inductive EvName where
  | change
  | dataReady
  | selectionCheck
  deriving DecidableEq, Repr

/-- Observable effects of the component, in emission order. -/
inductive Ev where
  /-- Emission `this.ready.emit(evt)`. -/
  | readyEmit
  /-- Emission `this.dataChange.emit(newData)`. -/
  | dataChangeEmit (d : Data)
  /-- Emission `this.change.emit(event)`. -/
  | changeEmit
  /-- Emission `this.dataReady.emit(event)`. -/
  | dataReadyEmit
  /-- invocation of the registered form `onChange` callback -/
  | onChangeCall (d : Data)
  /-- invocation of the user's `config.on.instanceReady` callback -/
  | userInstanceReady
  /-- Call of `window.console.error` on a rejected script/namespace resolution. -/
  | consoleError
  /-- Call `editor.fire('change')`. -/
  | fireChange
  /-- Call `editor.fire('dataReady')`. -/
  | fireDataReady
  /-- Call `undo.lock()`. -/
  | undoLock
  /-- Call `undo.unlock()`. -/
  | undoUnlock
  deriving DecidableEq, Repr

/-- Holds (`true`) exactly on `dataChange` emissions. -/
def isDataChange : Ev → Bool
  | .dataChangeEmit _ => true
  | _ => false

/-- Component state of `CKEditorComponent`. Source fields keep their
names (`_data`, `_readOnly`, `_destroyed`); `inst` is the source's
`instance`. `hasOnChange` records whether `registerOnChange` stored a
callback, `hasUserReady` whether `config.on.instanceReady` was supplied.
`subs` records which native events the shared handler is bound to, and
`resolved` / `creatorRun` / `handshakeDone` / `lateReady` are lifecycle
instrumentation (promise settled, `createEditor` ran, `instanceReady`
handler ran, handler ran after `ngOnDestroy`). -/
structure Ck where
  inst : Option Editor
  _data : Data
  _readOnly : Option Bool
  _destroyed : Bool
  hasOnChange : Bool
  hasUserReady : Bool
  subs : List EvName
  resolved : Bool
  creatorRun : Bool
  handshakeDone : Bool
  lateReady : Bool
  deriving DecidableEq, Repr

/-- The `get data` accessor: `return this._data`. -/
def Ck.data (s : Ck) : Data :=
  s._data

/-- The `set data` accessor (lines 140-151): no-op when equal to
`_data`; with an instance, push and read the (possibly normalized) value
back; otherwise buffer. -/
def Ck.setData (s : Ck) (d : Data) : Ck :=
  if d = s._data then s
  else
    match s.inst with
    | some e =>
      let e2 := e.setData d
      { s with inst := some e2, _data := e2.getData }
    | none => { s with _data := d }

/-- The `get readOnly` accessor: the live instance's flag when an
instance exists, the buffered `_readOnly` otherwise. -/
def Ck.readOnly (s : Ck) : Option Bool :=
  match s.inst with
  | some e => some e.readOnly
  | none => s._readOnly

/-- The `set readOnly` accessor (lines 161-168): delegate when an
instance exists, otherwise buffer into `_readOnly`. -/
def Ck.setReadOnly (s : Ck) (b : Bool) : Ck :=
  match s.inst with
  | some e => { s with inst := some (e.setReadOnly b) }
  | none => { s with _readOnly := some b }

/-- Method `writeValue(value)` (lines 196-198): assigns `this.data = value`. -/
def Ck.writeValue (s : Ck) (d : Data) : Ck :=
  s.setData d

/-- Method `subscribe(editor)` restricted to the shared `propagateChange`
handler's bindings (lines 310-317): always `dataReady`; `change` when
`this.instance.undoManager` is present, otherwise `selectionCheck`. The
remaining bindings (focus, paste, ...) relay to distinct handlers and are
not needed by any claim. -/
def Ck.subscribe (s : Ck) (e : Editor) : Ck :=
  { s with
    subs := EvName.dataReady ::
      (if e.hasUndo then [EvName.change] else [EvName.selectionCheck]) }

/-- Handler `propagateChange(event)` (lines 319-337): read the instance's data;
emit `change` / `dataReady` by event name; stop if the read value equals
`this.data`; otherwise update `_data`, emit `dataChange` and invoke the
registered `onChange` callback. The handler is only ever bound while an
instance exists; without one it does nothing here. -/
def Ck.propagateChange (s : Ck) (n : EvName) : Ck × List Ev :=
  match s.inst with
  | none => (s, [])
  | some e =>
    let newData := e.getData
    let evs : List Ev :=
      match n with
      | .change => [Ev.changeEmit]
      | .dataReady => [Ev.dataReadyEmit]
      | .selectionCheck => []
    if newData = s.data then (s, evs)
    else
      ({ s with _data := newData },
        evs ++ [Ev.dataChangeEmit newData] ++
          (if s.hasOnChange then [Ev.onChangeCall newData] else []))

/-- The `config.on.instanceReady` handler installed by `createEditor`
(lines 221-253), linearized: store the instance; apply the effective
read-only state (buffered value if set, else the instance's default)
through the `readOnly` setter; subscribe; then, when `this.data` is not
null, lock the undo manager (when present), push the buffered data, and
in the push's completion callback fire `change` / `dataReady` exactly
when the instance's value differs from the buffer, unlock, and emit
`ready` preceded by the user's `instanceReady` callback; with null data,
emit `ready` (after the user callback) directly. -/
def Ck.instanceReady (s : Ck) (editor : Editor) : Ck × List Ev :=
  let roVal : Bool :=
    match s._readOnly with
    | some b => b
    | none => editor.readOnly
  let e2 : Editor := editor.setReadOnly roVal
  let s3 : Ck :=
    ({ s with
        inst := some e2
        handshakeDone := true
        lateReady := s.lateReady || s._destroyed }).subscribe e2
  let undo : Bool := e2.hasUndo
  if s3.data ≠ none then
    let e3 := if undo then { e2 with undoLocked := true } else e2
    let e4 := e3.setData s3.data
    let fire : List Ev :=
      if s3.data ≠ e4.getData then
        if undo then [Ev.fireChange] else [Ev.fireDataReady]
      else []
    let e5 := if undo then { e4 with undoLocked := false } else e4
    ({ s3 with inst := some e5 },
      (if undo then [Ev.undoLock] else []) ++ fire ++
        (if undo then [Ev.undoUnlock] else []) ++
        (if s3.hasUserReady then [Ev.userInstanceReady] else []) ++
        [Ev.readyEmit])
  else
    (s3,
      (if s3.hasUserReady then [Ev.userInstanceReady] else []) ++
        [Ev.readyEmit])

/-- Outcome of the script/namespace resolution promise. -/
inductive Resolution where
  | ok
  | err
  deriving DecidableEq, Repr

/-- Settlement of the promise chain set up by `ngAfterViewInit`
(lines 175-186): a rejection is logged via `console.error` and swallowed;
a fulfilment checks `_destroyed` and aborts silently when set, otherwise
runs `createEditor` (recorded by `creatorRun`; the instance itself only
appears later, when the native `instanceReady` event fires). -/
def Ck.resolutionSettled (s : Ck) (r : Resolution) : Ck × List Ev :=
  match r with
  | .err => ({ s with resolved := true }, [Ev.consoleError])
  | .ok =>
    if s._destroyed then ({ s with resolved := true }, [])
    else ({ s with resolved := true, creatorRun := true }, [])

/-- First half of `ngOnDestroy`: `this._destroyed = true`. -/
def Ck.markDestroyed (s : Ck) : Ck :=
  { s with _destroyed := true }

/-- Second half of `ngOnDestroy`: `this.instance.destroy()` and
`this.instance = null` when an instance exists. -/
def Ck.releaseInstance (s : Ck) : Ck :=
  match s.inst with
  | some _ => { s with inst := none }
  | none => s

/-- Hook `ngOnDestroy` (lines 187-195): set the flag, then release. -/
def Ck.ngOnDestroy (s : Ck) : Ck :=
  s.markDestroyed.releaseInstance

/-- Environment / user actions driving the component. -/
inductive Act where
  /-- the `ngAfterViewInit` promise settles -/
  | resolve (r : Resolution)
  /-- the native `instanceReady` event fires with a fresh editor -/
  | instReady (e : Editor)
  /-- Hook `ngOnDestroy` runs. -/
  | destroy
  /-- write through the `data` input setter -/
  | setData (d : Data)
  /-- write through the `readOnly` input setter -/
  | setReadOnly (b : Bool)
  /-- Call of `writeValue` from the forms integration. -/
  | writeValue (d : Data)
  /-- a native event bound to the shared handler fires -/
  | fireHandler (n : EvName)
  deriving DecidableEq, Repr

/-- Holds (`true`) on resolution actions. -/
def isResolveAct : Act → Bool
  | .resolve _ => true
  | _ => false

/-- When the environment can deliver an action: a promise settles once;
the native `instanceReady` fires only after `createEditor` ran and only
once; `ngOnDestroy` runs once; the shared handler fires only while an
instance exists, through an event it was bound to. Note deliberately
absent: `instReady` is NOT guarded by `_destroyed` — the source handler
performs no such check. -/
def enabled (s : Ck) : Act → Bool
  | .resolve _ => !s.resolved
  | .instReady _ => s.creatorRun && !s.handshakeDone
  | .destroy => !s._destroyed
  | .fireHandler n => s.inst.isSome && s.subs.contains n
  | .setData _ => true
  | .setReadOnly _ => true
  | .writeValue _ => true

/-- One step of the component under an action. -/
def stepFn (s : Ck) : Act → Ck × List Ev
  | .resolve r => s.resolutionSettled r
  | .instReady e => s.instanceReady e
  | .destroy => (s.ngOnDestroy, [])
  | .setData d => (s.setData d, [])
  | .setReadOnly b => (s.setReadOnly b, [])
  | .writeValue d => (s.writeValue d, [])
  | .fireHandler n => s.propagateChange n

/-- Run a sequence of actions; actions the environment cannot deliver
(`enabled` is false) simply do not occur. Returns the final state and the
concatenated effect trace. -/
def run (s : Ck) : List Act → Ck × List Ev
  | [] => (s, [])
  | a :: rest =>
    if enabled s a then
      let p := stepFn s a
      let q := run p.1 rest
      (q.1, p.2 ++ q.2)
    else run s rest

/-- Freshly constructed component (constructor, lines 10-132), with the
two configuration-time booleans as parameters. -/
def init (userReady onChange : Bool) : Ck :=
  { inst := none, _data := none, _readOnly := none, _destroyed := false,
    hasOnChange := onChange, hasUserReady := userReady, subs := [],
    resolved := false, creatorRun := false, handshakeDone := false,
    lateReady := false }

/-- Concrete editor used by witnesses: no undo manager, empty ACF. -/
def plainEditor : Editor :=
  { value := none, readOnly := false, hasUndo := false, undoLocked := false,
    acf := [] }

/-- Concrete editor used by witnesses: undo manager present, ACF rewriting
`"a"` to `"b"`. -/
def undoEditor : Editor :=
  { value := some "", readOnly := false, hasUndo := true, undoLocked := false,
    acf := [(some "a", some "b")] }

end CkAngular

namespace CkAngular

theorem run_nil (s : Ck) : run s [] = (s, []) := rfl

theorem run_cons (s : Ck) (a : Act) (tr : List Act) :
    run s (a :: tr) =
      if enabled s a then
        ((run (stepFn s a).1 tr).1, (stepFn s a).2 ++ (run (stepFn s a).1 tr).2)
      else run s tr := by
  rw [run]

theorem run_append_fst (s : Ck) (t1 t2 : List Act) :
    (run s (t1 ++ t2)).1 = (run (run s t1).1 t2).1 := by
  induction t1 generalizing s with
  | nil => rfl
  | cons a t ih =>
    rw [List.cons_append, run_cons, run_cons]
    split
    · exact ih _
    · exact ih _

theorem run_inv (P : Ck → Prop)
    (hstep : ∀ s a, P s → enabled s a = true → P (stepFn s a).1) :
    ∀ tr s, P s → P (run s tr).1 := by
  intro tr
  induction tr with
  | nil => intro s h; exact h
  | cons a t ih =>
    intro s h
    rw [run_cons]
    split
    · exact ih _ (hstep s a h (by assumption))
    · exact ih _ h

theorem run_inv_avoiding (P : Ck → Prop) (bad : Act → Bool)
    (hstep : ∀ s a, P s → enabled s a = true → bad a = false →
      P (stepFn s a).1) :
    ∀ tr, (∀ a ∈ tr, bad a = false) → ∀ s, P s → P (run s tr).1 := by
  intro tr
  induction tr with
  | nil => intro _ s h; exact h
  | cons a t ih =>
    intro hb s h
    rw [run_cons]
    split
    · exact ih (fun x hx => hb x (List.mem_cons_of_mem a hx)) _
        (hstep s a h (by assumption) (hb a (List.mem_cons_self a t)))
    · exact ih (fun x hx => hb x (List.mem_cons_of_mem a hx)) _ h

/-- C3: the `data` setter is a no-op on the current value; with a live
instance it pushes the value and stores the instance's echoed (possibly
normalized) value into `_data`; without an instance it only buffers the
value. -/
theorem setData_spec (s : Ck) (d : Data) :
    (d = s.data → s.setData d = s) ∧
    (d ≠ s.data → ∀ e : Editor, s.inst = some e →
      (s.setData d).inst = some (e.setData d) ∧
      (s.setData d).data = (e.setData d).getData) ∧
    (d ≠ s.data → s.inst = none → s.setData d = { s with _data := d }) := by
  refine ⟨fun h => ?_, fun h e he => ?_, fun h hn => ?_⟩
  · simp [Ck.setData, Ck.data] at h ⊢
    simp [h]
  · simp only [Ck.data] at h
    simp [Ck.setData, Ck.data, h, he]
  · simp only [Ck.data] at h
    simp [Ck.setData, h, hn]

/-- C3 witness: on a component holding a live instance whose ACF rewrites
`"a"` to `"b"`, writing `"a"` pushes it and reads back `"b"`. -/
theorem setData_spec_witness :
    ({ init false false with inst := some undoEditor }.setData
        (some "a")).data = (undoEditor.setData (some "a")).getData :=
  ((setData_spec { init false false with inst := some undoEditor }
      (some "a")).2.1 (by decide) undoEditor rfl).2

/-- C9: `writeValue` is definitionally the `data` setter: both routes
produce the same state transition, both as direct calls and as actions of
the step machine. -/
theorem writeValue_refines_setData (s : Ck) (d : Data) :
    s.writeValue d = s.setData d ∧
    stepFn s (Act.writeValue d) = stepFn s (Act.setData d) :=
  ⟨rfl, rfl⟩

/-- C6: after the creation handshake, the shared handler is bound to
`change` exactly when the editor has an undo manager, to `selectionCheck`
exactly when it does not, and always to `dataReady`. -/
theorem subscribe_bindings (s : Ck) (e : Editor) :
    (EvName.change ∈ (s.instanceReady e).1.subs ↔ e.hasUndo = true) ∧
    (EvName.selectionCheck ∈ (s.instanceReady e).1.subs ↔
      e.hasUndo = false) ∧
    EvName.dataReady ∈ (s.instanceReady e).1.subs := by
  cases hu : e.hasUndo <;>
    simp [Ck.instanceReady, Ck.subscribe, Editor.setReadOnly, hu] <;>
    split <;> simp

/-- C5: read-only state written before creation lands in the
`_readOnly` buffer; the creation handshake applies the buffered value
(or, if none was buffered, the instance's own default) to the instance
and leaves the buffer untouched; once an instance exists, reads and
writes of the read-only property delegate to the instance and never
touch the buffer again. -/
theorem readOnly_buffering (s : Ck) (e : Editor) (b : Bool) :
    (s.inst = none →
      (s.setReadOnly b)._readOnly = some b ∧ (s.setReadOnly b).inst = none) ∧
    ((s.instanceReady e).1.inst.map Editor.readOnly =
      some (s._readOnly.getD e.readOnly)) ∧
    ((s.instanceReady e).1._readOnly = s._readOnly) ∧
    (s.inst = some e → s.readOnly = some e.readOnly) ∧
    (s.inst = some e →
      (s.setReadOnly b).inst = some (e.setReadOnly b) ∧
      (s.setReadOnly b)._readOnly = s._readOnly) := by
  refine ⟨fun h => ?_, ?_, ?_, fun h => ?_, fun h => ?_⟩
  · simp [Ck.setReadOnly, h]
  · cases hr : s._readOnly <;> cases hu : e.hasUndo <;>
      simp [Ck.instanceReady, Ck.subscribe, Editor.setReadOnly,
        Editor.setData, hr, hu] <;>
      split <;> simp
  · cases hu : e.hasUndo <;>
      simp [Ck.instanceReady, Ck.subscribe, Editor.setReadOnly,
        Editor.setData, hu] <;>
      split <;> simp
  · simp [Ck.readOnly, h]
  · simp [Ck.setReadOnly, h]

/-- C5 witness: with a live instance, a read-only write delegates to the
instance and leaves the pre-creation buffer unchanged. -/
theorem readOnly_buffering_witness :
    ({ init false false with inst := some plainEditor }.setReadOnly
        true).inst = some (plainEditor.setReadOnly true) ∧
    ({ init false false with inst := some plainEditor }.setReadOnly
        true)._readOnly =
      ({ init false false with inst := some plainEditor } : Ck)._readOnly :=
  (readOnly_buffering { init false false with inst := some plainEditor }
    plainEditor true).2.2.2.2 rfl

/-- C2: each firing of the shared handler reads the instance's value;
when it equals `_data` the state is unchanged, no `dataChange` is emitted
and the registered change callback is not invoked; otherwise `_data`
becomes the new value, one `dataChange` carrying it is emitted and the
change callback (when registered) is invoked; hence two consecutive
firings over the same instance value yield exactly one `dataChange` when
the value is new, and none when it is not. -/
theorem propagateChange_spec (s : Ck) (e : Editor) (n n2 : EvName)
    (h : s.inst = some e) :
    (e.getData = s.data →
      (s.propagateChange n).1 = s ∧
      (s.propagateChange n).2.countP isDataChange = 0 ∧
      ∀ d, Ev.onChangeCall d ∉ (s.propagateChange n).2) ∧
    (e.getData ≠ s.data →
      (s.propagateChange n).1.data = e.getData ∧
      (s.propagateChange n).2.countP isDataChange = 1 ∧
      Ev.dataChangeEmit e.getData ∈ (s.propagateChange n).2 ∧
      (s.hasOnChange = true →
        Ev.onChangeCall e.getData ∈ (s.propagateChange n).2)) ∧
    ((s.propagateChange n).2 ++
        ((s.propagateChange n).1.propagateChange n2).2).countP isDataChange =
      if e.getData = s.data then 0 else 1 := by
  simp only [Ck.data, Editor.getData] at *
  by_cases hq : e.value = s._data
  · refine ⟨fun _ => ?_, fun hne => absurd hq hne, ?_⟩
    · cases n <;>
        simp [Ck.propagateChange, h, Ck.data, Editor.getData, hq,
          isDataChange]
    · cases n <;> cases n2 <;>
        simp [Ck.propagateChange, h, Ck.data, Editor.getData, hq,
          isDataChange]
  · refine ⟨fun hqq => absurd hqq hq, fun _ => ?_, ?_⟩
    · cases n <;> cases hoc : s.hasOnChange <;>
        simp [Ck.propagateChange, h, Ck.data, Editor.getData, hq, hoc,
          isDataChange]
    · cases n <;> cases n2 <;> cases hoc : s.hasOnChange <;>
        simp [Ck.propagateChange, h, Ck.data, Editor.getData, hq, hoc,
          isDataChange]

/-- C2 witness: on a component whose instance holds a value differing
from `_data`, two consecutive `change` firings produce exactly one
`dataChange` emission. -/
theorem propagateChange_spec_witness :
    ({ init false true with
        inst := some { plainEditor with value := some "new" }
        _data := some "old" } : Ck).inst =
      some { plainEditor with value := some "new" } ∧
    ((({ init false true with
        inst := some { plainEditor with value := some "new" }
        _data := some "old" } : Ck).propagateChange
          EvName.change).2).countP isDataChange = 1 := by
  have h := propagateChange_spec
    { init false true with
      inst := some { plainEditor with value := some "new" }
      _data := some "old" }
    { plainEditor with value := some "new" } EvName.change EvName.change rfl
  exact ⟨rfl, (h.2.1 (by decide)).2.1⟩

/-- C1: the creation handshake emits exactly one `ready`; with non-null
buffered data the buffered value is pushed into the instance and, inside
the push's completion callback, `change` (undo manager present) or
`dataReady` (absent) is fired on the editor exactly when the post-push
value differs from the buffer, framed by undo lock/unlock when an undo
manager exists, and `ready` — preceded by the user's `instanceReady`
callback — closes the trace; with null buffered data the trace is just
the user callback (if any) and `ready`, with no push. -/
theorem instanceReady_handshake (s : Ck) (e : Editor) :
    (s.instanceReady e).2.count Ev.readyEmit = 1 ∧
    (Ev.fireChange ∈ (s.instanceReady e).2 ↔
      s.data ≠ none ∧ e.hasUndo = true ∧
        s.data ≠ lookupNorm e.acf s.data) ∧
    (Ev.fireDataReady ∈ (s.instanceReady e).2 ↔
      s.data ≠ none ∧ e.hasUndo = false ∧
        s.data ≠ lookupNorm e.acf s.data) ∧
    (s.data ≠ none →
      (s.instanceReady e).1.inst.map Editor.value =
        some (lookupNorm e.acf s.data)) ∧
    (s.data ≠ none → e.hasUndo = true →
      (s.instanceReady e).2 =
        [Ev.undoLock] ++
          (if s.data ≠ lookupNorm e.acf s.data then [Ev.fireChange]
            else []) ++
          [Ev.undoUnlock] ++
          (if s.hasUserReady then [Ev.userInstanceReady] else []) ++
          [Ev.readyEmit]) ∧
    (s.data ≠ none → e.hasUndo = false →
      (s.instanceReady e).2 =
        (if s.data ≠ lookupNorm e.acf s.data then [Ev.fireDataReady]
          else []) ++
          (if s.hasUserReady then [Ev.userInstanceReady] else []) ++
          [Ev.readyEmit]) ∧
    (s.data = none →
      (s.instanceReady e).2 =
        (if s.hasUserReady then [Ev.userInstanceReady] else []) ++
          [Ev.readyEmit] ∧
      (s.instanceReady e).1.inst.map Editor.value = some e.value) := by
  cases hd : s._data with
  | none =>
    cases hu : e.hasUndo <;> cases hr : s.hasUserReady <;>
      simp [Ck.instanceReady, Ck.subscribe, Ck.data, Editor.setReadOnly,
        Editor.setData, Editor.getData, hd, hu, hr]
  | some d =>
    by_cases hn : (some d : Data) = lookupNorm e.acf (some d)
    · cases hu : e.hasUndo <;> cases hr : s.hasUserReady <;>
        simp [Ck.instanceReady, Ck.subscribe, Ck.data, Editor.setReadOnly,
          Editor.setData, Editor.getData, hd, hu, hr, hn.symm]
    · cases hu : e.hasUndo <;> cases hr : s.hasUserReady <;>
        simp [Ck.instanceReady, Ck.subscribe, Ck.data, Editor.setReadOnly,
          Editor.setData, Editor.getData, hd, hu, hr, hn]

/-- C1 witness: buffering `"a"` before creation of an editor with an undo
manager whose ACF rewrites `"a"` to `"b"`, with a user `instanceReady`
callback configured, yields the full lock/fire/unlock/user/ready trace. -/
theorem instanceReady_handshake_witness :
    ({ init true false with _data := some "a" } : Ck).data ≠ none ∧
    (({ init true false with _data := some "a" } : Ck).instanceReady
        undoEditor).2 =
      [Ev.undoLock] ++
        (if ({ init true false with _data := some "a" } : Ck).data ≠
            lookupNorm undoEditor.acf
              ({ init true false with _data := some "a" } : Ck).data then
          [Ev.fireChange]
        else []) ++
        [Ev.undoUnlock] ++
        (if ({ init true false with _data := some "a" } : Ck).hasUserReady
          then [Ev.userInstanceReady] else []) ++
        [Ev.readyEmit] :=
  ⟨by decide,
    (instanceReady_handshake { init true false with _data := some "a" }
      undoEditor).2.2.2.2.1 (by decide) rfl⟩

theorem instanceReady_fields (s : Ck) (e : Editor) :
    (s.instanceReady e).1.inst.isSome = true ∧
    (s.instanceReady e).1.handshakeDone = true ∧
    (s.instanceReady e).1.lateReady = (s.lateReady || s._destroyed) ∧
    (s.instanceReady e).1._destroyed = s._destroyed ∧
    (s.instanceReady e).1._readOnly = s._readOnly ∧
    (s.instanceReady e).1.resolved = s.resolved ∧
    (s.instanceReady e).1.creatorRun = s.creatorRun := by
  cases hu : e.hasUndo <;>
    simp [Ck.instanceReady, Ck.subscribe, Editor.setReadOnly,
      Editor.setData, hu] <;>
    split <;> simp

theorem setData_fields (s : Ck) (d : Data) :
    (s.setData d).inst.isSome = s.inst.isSome ∧
    (s.setData d)._readOnly = s._readOnly ∧
    (s.setData d)._destroyed = s._destroyed ∧
    (s.setData d).handshakeDone = s.handshakeDone ∧
    (s.setData d).lateReady = s.lateReady ∧
    (s.setData d).resolved = s.resolved ∧
    (s.setData d).creatorRun = s.creatorRun := by
  cases hi : s.inst <;> simp [Ck.setData, hi] <;> split <;> simp [hi]

theorem setReadOnly_fields (s : Ck) (b : Bool) :
    (s.setReadOnly b).inst.isSome = s.inst.isSome ∧
    (s.setReadOnly b)._destroyed = s._destroyed ∧
    (s.setReadOnly b).handshakeDone = s.handshakeDone ∧
    (s.setReadOnly b).lateReady = s.lateReady ∧
    (s.setReadOnly b).resolved = s.resolved ∧
    (s.setReadOnly b).creatorRun = s.creatorRun ∧
    (s.inst.isSome = true → (s.setReadOnly b)._readOnly = s._readOnly) := by
  cases hi : s.inst <;> simp [Ck.setReadOnly, hi]

theorem propagateChange_fields (s : Ck) (n : EvName) :
    (s.propagateChange n).1.inst = s.inst ∧
    (s.propagateChange n).1._readOnly = s._readOnly ∧
    (s.propagateChange n).1._destroyed = s._destroyed ∧
    (s.propagateChange n).1.handshakeDone = s.handshakeDone ∧
    (s.propagateChange n).1.lateReady = s.lateReady ∧
    (s.propagateChange n).1.resolved = s.resolved ∧
    (s.propagateChange n).1.creatorRun = s.creatorRun := by
  cases hi : s.inst <;> simp [Ck.propagateChange, hi] <;> split <;> simp [hi]

theorem resolutionSettled_fields (s : Ck) (r : Resolution) :
    (s.resolutionSettled r).1.inst = s.inst ∧
    (s.resolutionSettled r).1._data = s._data ∧
    (s.resolutionSettled r).1._readOnly = s._readOnly ∧
    (s.resolutionSettled r).1._destroyed = s._destroyed ∧
    (s.resolutionSettled r).1.handshakeDone = s.handshakeDone ∧
    (s.resolutionSettled r).1.lateReady = s.lateReady ∧
    (s.resolutionSettled r).1.resolved = true ∧
    (r = Resolution.err →
      (s.resolutionSettled r).1.creatorRun = s.creatorRun) := by
  cases r <;> simp [Ck.resolutionSettled] <;> split <;> simp

theorem ngOnDestroy_fields (s : Ck) :
    s.ngOnDestroy.inst = none ∧
    s.ngOnDestroy._destroyed = true ∧
    s.ngOnDestroy._data = s._data ∧
    s.ngOnDestroy._readOnly = s._readOnly ∧
    s.ngOnDestroy.handshakeDone = s.handshakeDone ∧
    s.ngOnDestroy.lateReady = s.lateReady ∧
    s.ngOnDestroy.resolved = s.resolved ∧
    s.ngOnDestroy.creatorRun = s.creatorRun := by
  cases hi : s.inst <;>
    simp [Ck.ngOnDestroy, Ck.markDestroyed, Ck.releaseInstance, hi]

theorem run_destroy_sets_destroyed (s : Ck) :
    (run s [Act.destroy]).1._destroyed = true := by
  rw [run_cons]
  split
  · exact (ngOnDestroy_fields s).2.1
  · next hna =>
    simp only [enabled, Bool.not_eq_true'] at hna
    simpa [run_nil] using hna

theorem no_creator_no_instance (tr : List Act)
    (h : ∀ a ∈ tr, isResolveAct a = false) (s : Ck)
    (hc : s.creatorRun = false) (hi : s.inst = none) :
    (run s tr).1.creatorRun = false ∧ (run s tr).1.inst = none := by
  refine run_inv_avoiding
    (fun s => s.creatorRun = false ∧ s.inst = none) isResolveAct
    ?_ tr h s ⟨hc, hi⟩
  intro s a hP hen hbad
  obtain ⟨h1, h2⟩ := hP
  cases a with
  | resolve r => simp [isResolveAct] at hbad
  | instReady e => simp [enabled, h1] at hen
  | destroy =>
    exact ⟨(ngOnDestroy_fields s).2.2.2.2.2.2.2 ▸ h1,
      (ngOnDestroy_fields s).1⟩
  | setData d =>
    refine ⟨(setData_fields s d).2.2.2.2.2.2 ▸ h1, ?_⟩
    have := (setData_fields s d).1
    rw [h2] at this
    simpa using this
  | setReadOnly b =>
    refine ⟨(setReadOnly_fields s b).2.2.2.2.2.1 ▸ h1, ?_⟩
    have := (setReadOnly_fields s b).1
    rw [h2] at this
    simpa using this
  | writeValue d =>
    refine ⟨(setData_fields s d).2.2.2.2.2.2 ▸ h1, ?_⟩
    have := (setData_fields s d).1
    rw [h2] at this
    simpa using this
  | fireHandler n =>
    exact ⟨(propagateChange_fields s n).2.2.2.2.2.2 ▸ h1,
      (propagateChange_fields s n).1 ▸ h2⟩

theorem settled_no_creator (tr : List Act) (s : Ck)
    (hr : s.resolved = true) (hc : s.creatorRun = false)
    (hi : s.inst = none) :
    (run s tr).1.resolved = true ∧ (run s tr).1.creatorRun = false ∧
      (run s tr).1.inst = none := by
  have main := run_inv
    (fun s => s.resolved = true ∧ s.creatorRun = false ∧ s.inst = none)
    ?_ tr s ⟨hr, hc, hi⟩
  · exact main
  intro s a hP hen
  obtain ⟨h0, h1, h2⟩ := hP
  cases a with
  | resolve r => simp [enabled, h0] at hen
  | instReady e => simp [enabled, h1] at hen
  | destroy =>
    exact ⟨(ngOnDestroy_fields s).2.2.2.2.2.2.1 ▸ h0,
      (ngOnDestroy_fields s).2.2.2.2.2.2.2 ▸ h1, (ngOnDestroy_fields s).1⟩
  | setData d =>
    refine ⟨(setData_fields s d).2.2.2.2.2.1 ▸ h0,
      (setData_fields s d).2.2.2.2.2.2 ▸ h1, ?_⟩
    have := (setData_fields s d).1
    rw [h2] at this
    simpa using this
  | setReadOnly b =>
    refine ⟨(setReadOnly_fields s b).2.2.2.2.1 ▸ h0,
      (setReadOnly_fields s b).2.2.2.2.2.1 ▸ h1, ?_⟩
    have := (setReadOnly_fields s b).1
    rw [h2] at this
    simpa using this
  | writeValue d =>
    refine ⟨(setData_fields s d).2.2.2.2.2.1 ▸ h0,
      (setData_fields s d).2.2.2.2.2.2 ▸ h1, ?_⟩
    have := (setData_fields s d).1
    rw [h2] at this
    simpa using this
  | fireHandler n =>
    exact ⟨(propagateChange_fields s n).2.2.2.2.2.1 ▸ h0,
      (propagateChange_fields s n).2.2.2.2.2.2 ▸ h1,
      (propagateChange_fields s n).1 ▸ h2⟩

/-- C4: when the component is destroyed before the script/namespace
resolution settles, the fulfilment callback returns immediately: it
emits nothing, `createEditor` is not invoked, and no editor instance
ever comes into existence afterwards. -/
theorem destroyed_before_resolution (ur oc : Bool) (tr1 tr2 : List Act)
    (h : ∀ a ∈ tr1, isResolveAct a = false) :
    ((run (init ur oc) (tr1 ++ [Act.destroy])).1.resolutionSettled
      Resolution.ok).2 = [] ∧
    ((run (init ur oc) (tr1 ++ [Act.destroy])).1.resolutionSettled
      Resolution.ok).1.creatorRun = false ∧
    (run ((run (init ur oc) (tr1 ++ [Act.destroy])).1.resolutionSettled
      Resolution.ok).1 tr2).1.inst = none := by
  have hd : (run (init ur oc) (tr1 ++ [Act.destroy])).1._destroyed =
      true := by
    rw [run_append_fst]
    exact run_destroy_sets_destroyed _
  have hmem : ∀ a ∈ tr1 ++ [Act.destroy], isResolveAct a = false := by
    intro a ha
    rcases List.mem_append.mp ha with h1 | h2
    · exact h a h1
    · rw [List.mem_singleton.mp h2]
      rfl
  have hQ := no_creator_no_instance (tr1 ++ [Act.destroy]) hmem
    (init ur oc) rfl rfl
  have hset : ((run (init ur oc) (tr1 ++ [Act.destroy])).1.resolutionSettled
      Resolution.ok).1 =
      { (run (init ur oc) (tr1 ++ [Act.destroy])).1 with
          resolved := true } := by
    simp [Ck.resolutionSettled, hd]
  have hev : ((run (init ur oc) (tr1 ++ [Act.destroy])).1.resolutionSettled
      Resolution.ok).2 = [] := by
    simp [Ck.resolutionSettled, hd]
  refine ⟨hev, by rw [hset]; exact hQ.1, ?_⟩
  rw [hset]
  exact (settled_no_creator tr2
    { (run (init ur oc) (tr1 ++ [Act.destroy])).1 with resolved := true }
    rfl hQ.1 hQ.2).2.2

/-- C4 witness: buffer data, destroy, then let the resolution fulfil and
the (would-be) native creation event arrive — no events from the
callback and no instance. -/
theorem destroyed_before_resolution_witness :
    ((run (init false false) ([Act.setData (some "x")] ++
      [Act.destroy])).1.resolutionSettled Resolution.ok).2 = [] ∧
    ((run (init false false) ([Act.setData (some "x")] ++
      [Act.destroy])).1.resolutionSettled
        Resolution.ok).1.creatorRun = false ∧
    (run ((run (init false false) ([Act.setData (some "x")] ++
      [Act.destroy])).1.resolutionSettled Resolution.ok).1
        [Act.instReady plainEditor]).1.inst = none :=
  destroyed_before_resolution false false [Act.setData (some "x")]
    [Act.instReady plainEditor] (by decide)

/-- C8: a rejected script/namespace resolution is logged to the console
and swallowed, and afterwards — whatever else happens — `createEditor`
never runs and no editor instance is ever created for this component. -/
theorem resolution_failure_swallowed (ur oc : Bool) (tr1 tr2 : List Act)
    (h : ∀ a ∈ tr1, isResolveAct a = false) :
    ((run (init ur oc) tr1).1.resolutionSettled Resolution.err).2 =
      [Ev.consoleError] ∧
    (run ((run (init ur oc) tr1).1.resolutionSettled Resolution.err).1
      tr2).1.inst = none ∧
    (run ((run (init ur oc) tr1).1.resolutionSettled Resolution.err).1
      tr2).1.creatorRun = false := by
  have hQ := no_creator_no_instance tr1 h (init ur oc) rfl rfl
  obtain ⟨f1, _, _, _, _, _, f7, f8⟩ :=
    resolutionSettled_fields (run (init ur oc) tr1).1 Resolution.err
  have hR := settled_no_creator tr2
    ((run (init ur oc) tr1).1.resolutionSettled Resolution.err).1
    f7 (by rw [f8 rfl]; exact hQ.1) (by rw [f1]; exact hQ.2)
  exact ⟨rfl, hR.2.2, hR.2.1⟩

/-- C8 witness: a rejection arriving after some early writes logs one
console error, and a later (impossible) creation event still yields no
instance. -/
theorem resolution_failure_swallowed_witness :
    ((run (init false false) [Act.setData (some "x")]).1.resolutionSettled
      Resolution.err).2 = [Ev.consoleError] ∧
    (run ((run (init false false)
      [Act.setData (some "x")]).1.resolutionSettled Resolution.err).1
        [Act.instReady plainEditor]).1.inst = none :=
  ⟨(resolution_failure_swallowed false false [Act.setData (some "x")]
      [Act.instReady plainEditor] (by decide)).1,
    (resolution_failure_swallowed false false [Act.setData (some "x")]
      [Act.instReady plainEditor] (by decide)).2.1⟩

theorem lifecycle_inv (ur oc : Bool) (tr : List Act) :
    (run (init ur oc) tr).1.inst.isSome =
      ((run (init ur oc) tr).1.handshakeDone &&
        (!(run (init ur oc) tr).1._destroyed ||
          (run (init ur oc) tr).1.lateReady)) ∧
    ((run (init ur oc) tr).1.lateReady = true →
      (run (init ur oc) tr).1._destroyed = true) := by
  refine run_inv (fun s =>
    s.inst.isSome =
      (s.handshakeDone && (!s._destroyed || s.lateReady)) ∧
    (s.lateReady = true → s._destroyed = true)) ?_ tr (init ur oc)
    ⟨rfl, fun hx => Bool.noConfusion hx⟩
  intro s a hP hen
  obtain ⟨h1, h2⟩ := hP
  cases a with
  | resolve r =>
    obtain ⟨f1, _, _, f4, f5, f6, _, _⟩ := resolutionSettled_fields s r
    simp only [stepFn]
    rw [f1, f4, f5, f6]
    exact ⟨h1, h2⟩
  | instReady e =>
    obtain ⟨f1, f2, f3, f4, _, _, _⟩ := instanceReady_fields s e
    simp only [stepFn]
    rw [f1, f2, f3, f4]
    constructor
    · cases hdc : s._destroyed <;> simp [hdc]
    · intro h3
      cases hlr : s.lateReady
      · rw [hlr] at h3
        simp at h3
        exact h3
      · exact h2 hlr
  | destroy =>
    obtain ⟨f1, f2, _, _, f5, f6, _, _⟩ := ngOnDestroy_fields s
    have hdd : s._destroyed = false := by simpa [enabled] using hen
    have hl : s.lateReady = false := by
      cases hlr : s.lateReady
      · rfl
      · rw [h2 hlr] at hdd
        exact Bool.noConfusion hdd
    simp only [stepFn]
    rw [f1, f2, f5, f6, hl]
    exact ⟨by simp, fun h3 => rfl⟩
  | setData d =>
    obtain ⟨f1, _, f3, f4, f5, _, _⟩ := setData_fields s d
    simp only [stepFn]
    rw [f1, f3, f4, f5]
    exact ⟨h1, h2⟩
  | setReadOnly b =>
    obtain ⟨f1, f2, f3, f4, _, _, _⟩ := setReadOnly_fields s b
    simp only [stepFn]
    rw [f1, f2, f3, f4]
    exact ⟨h1, h2⟩
  | writeValue d =>
    obtain ⟨f1, _, f3, f4, f5, _, _⟩ := setData_fields s d
    simp only [stepFn, Ck.writeValue]
    rw [f1, f3, f4, f5]
    exact ⟨h1, h2⟩
  | fireHandler n =>
    obtain ⟨f1, _, f3, f4, f5, _, _⟩ := propagateChange_fields s n
    simp only [stepFn]
    rw [f1, f3, f4, f5]
    exact ⟨h1, h2⟩

/-- C7 counterexample: when the resolution fulfils, the component is
destroyed, and only then the native `instanceReady` event fires (the
handler performs no `_destroyed` check), the component ends up destroyed
yet holding a non-null instance reference — the reference is not
confined to the span between handshake completion and teardown, and it
is not null after teardown. -/
theorem destroy_then_ready_counterexample :
    (run (init false false)
      [Act.resolve Resolution.ok, Act.destroy,
        Act.instReady plainEditor]).1._destroyed = true ∧
    (run (init false false)
      [Act.resolve Resolution.ok, Act.destroy,
        Act.instReady plainEditor]).1.inst ≠ none := by
  decide

/-- C7 (amended): teardown sets `_destroyed` before releasing the
instance; along every action trace the instance reference is populated
exactly when the handshake has completed and either teardown has not
begun or the handshake itself ran after teardown; in particular, after
teardown with no late handshake the reference is null. -/
theorem teardown_flag_and_instance (ur oc : Bool) (tr : List Act) :
    ((run (init ur oc) tr).1.ngOnDestroy =
      ((run (init ur oc) tr).1.markDestroyed).releaseInstance) ∧
    (((run (init ur oc) tr).1.markDestroyed)._destroyed = true) ∧
    ((run (init ur oc) tr).1.inst.isSome =
      ((run (init ur oc) tr).1.handshakeDone &&
        (!(run (init ur oc) tr).1._destroyed ||
          (run (init ur oc) tr).1.lateReady))) ∧
    ((run (init ur oc) tr).1._destroyed = true →
      (run (init ur oc) tr).1.lateReady = false →
      (run (init ur oc) tr).1.inst = none) := by
  refine ⟨rfl, rfl, (lifecycle_inv ur oc tr).1, ?_⟩
  intro hd hl
  have h := (lifecycle_inv ur oc tr).1
  rw [hd, hl] at h
  cases hx : (run (init ur oc) tr).1.inst with
  | none => rfl
  | some e =>
    rw [hx] at h
    simp at h

/-- C7 amended-claim witness: after plain teardown (no late handshake)
the instance reference is null. -/
theorem teardown_flag_and_instance_witness :
    (run (init false false) [Act.destroy]).1._destroyed = true ∧
    (run (init false false) [Act.destroy]).1.lateReady = false ∧
    (run (init false false) [Act.destroy]).1.inst = none :=
  ⟨by decide, by decide,
    (teardown_flag_and_instance false false [Act.destroy]).2.2.2
      (by decide) (by decide)⟩

theorem readOnly_buffer_frozen (tr : List Act)
    (h : Act.destroy ∉ tr) (s : Ck) (hi : s.inst.isSome = true) :
    (run s tr).1.inst.isSome = true ∧
    (run s tr).1._readOnly = s._readOnly := by
  refine run_inv_avoiding
    (fun x => x.inst.isSome = true ∧ x._readOnly = s._readOnly)
    (fun a => decide (a = Act.destroy)) ?_ tr ?_ s ⟨hi, rfl⟩
  · intro x a hP hen hbad
    obtain ⟨h1, h2⟩ := hP
    cases a with
    | destroy => simp at hbad
    | resolve r =>
      obtain ⟨f1, _, f3, _⟩ := resolutionSettled_fields x r
      simp only [stepFn]
      rw [f1, f3]
      exact ⟨h1, h2⟩
    | instReady e =>
      obtain ⟨f1, _, _, _, f5, _, _⟩ := instanceReady_fields x e
      simp only [stepFn]
      rw [f1, f5]
      exact ⟨rfl, h2⟩
    | setData d =>
      obtain ⟨f1, f2, _⟩ := setData_fields x d
      simp only [stepFn]
      rw [f1, f2]
      exact ⟨h1, h2⟩
    | setReadOnly b =>
      obtain ⟨f1, _, _, _, _, _, f7⟩ := setReadOnly_fields x b
      simp only [stepFn]
      rw [f1, f7 h1]
      exact ⟨h1, h2⟩
    | writeValue d =>
      obtain ⟨f1, f2, _⟩ := setData_fields x d
      simp only [stepFn, Ck.writeValue]
      rw [f1, f2]
      exact ⟨h1, h2⟩
    | fireHandler n =>
      obtain ⟨f1, f2, _⟩ := propagateChange_fields x n
      simp only [stepFn]
      rw [f1, f2]
      exact ⟨h1, h2⟩
  · intro a ha
    exact decide_eq_false (fun hEq => h (hEq ▸ ha))

/-- C10: create an instance from any pre-creation state, drive the
component arbitrarily without destroying it, then tear it down: the
read-only getter now reports the value buffered before creation (null if
none was ever buffered), not the editor's last live read-only state —
the buffer survives the instance's whole lifetime. -/
theorem post_teardown_readOnly (s0 : Ck) (e : Editor) (tr : List Act)
    (hnd : Act.destroy ∉ tr) :
    ((run (s0.instanceReady e).1 tr).1.ngOnDestroy).inst = none ∧
    ((run (s0.instanceReady e).1 tr).1.ngOnDestroy).readOnly =
      s0._readOnly := by
  obtain ⟨g1, g2⟩ :=
    readOnly_buffer_frozen tr hnd (s0.instanceReady e).1
      (instanceReady_fields s0 e).1
  have hro : (s0.instanceReady e).1._readOnly = s0._readOnly :=
    (instanceReady_fields s0 e).2.2.2.2.1
  refine ⟨(ngOnDestroy_fields _).1, ?_⟩
  rw [Ck.readOnly, (ngOnDestroy_fields _).1]
  rw [(ngOnDestroy_fields _).2.2.2.1, g2, hro]

/-- C10 witness: buffer read-only `true` before creation (the editor's
live flag is driven to `false` after creation); after teardown the
getter reports the buffered `true`. -/
theorem post_teardown_readOnly_witness :
    ((run (({ init false false with _readOnly := some true } :
        Ck).instanceReady plainEditor).1
      [Act.setReadOnly false]).1.ngOnDestroy).readOnly =
      ({ init false false with _readOnly := some true } : Ck)._readOnly :=
  (post_teardown_readOnly
    { init false false with _readOnly := some true } plainEditor
    [Act.setReadOnly false] (by decide)).2

end CkAngular
